import Mathlib

/-!
# lotus-worker: task intake, staging and result propagation

A shallow embedding of `cmd/lotus-worker/sub.go`.

The worker is sequential, so the program is embedded as state passing over an
explicit state: the local file system, the state of everything outside the
worker (coordinator, network, sealing library), and the chronological list of
the calls made so far.  The packages the file links against (`api`,
`sectorbuilder`, `net/http`, `os`, `io`, `path/filepath`) are not part of the
file; they are taken as an environment record `Env` of arbitrary functions of
the state.  A Go `panic` is an explicit outcome.

Conventions of the embedding:

* `uint64` identifiers are `Nat` and the task type (a Go `int`) is `Int`; no
  arithmetic is done on either.
* The constants `WorkerPreCommit` and `WorkerCommit` are fields of `Env`.
* A collaborator returns a value for every input; it does not panic.
* The task channel is the finite list of the tasks it delivers before it is
  closed.
* Calls over the network read and change the remote state only; the sealing
  library and the sector builder constructor may read and change the disk.
* An open file is a value holding its path and whether it has been closed.
  `http.Client.Do` closes the body of the request it sends, as its contract
  says, and `Close` on a closed file returns an error.
* The call record is bookkeeping: each collaborator of `acceptJobs` and
  `processTask` is recorded when called, and `fetch` and `push` record
  themselves on entry.
-/

namespace LotusWorker

/-! ## Errors -/

/-- A Go `error` value: either a leaf error with its message, or an error made
by `xerrors.Errorf(msg + "%w", err)`, which keeps `err` for unwrapping. -/
inductive Error where
  | new (msg : String)
  | wrap (msg : String) (err : Error)
  deriving DecidableEq, Repr

/-- The text `err.Error()` of an error. -/
def Error.message : Error → String
  | .new msg => msg
  | .wrap msg err => msg ++ err.message

/-- `xerrors.Errorf("unknown task type %d", t)`: a leaf error, the integer
printed in decimal. -/
def errorfUnknownTaskType (t : Int) : Error :=
  .new ("unknown task type " ++ toString t)

/-- `xerrors.Errorf("fetch failed: %w", err)`. -/
def errorfFetchFailed (err : Error) : Error :=
  .wrap "fetch failed: " err

/-- The error of an operation `op` on a file that is already closed, as the
`os` package gives it: `op path: file already closed`. -/
def errFileClosed (op path : String) : Error :=
  .wrap (op ++ " " ++ path ++ ": ") (.new "file already closed")

/-! ## Data model -/

abbrev Bytes := List UInt8

/-- An `*os.File`: the path it was opened at, and whether it has been closed. -/
structure File where
  path : String
  closed : Bool

/-- The local file system: the content of every path that holds a file. -/
abbrev FS := String → Option Bytes

/-- The types of the linked packages that the worker only passes around, with
the Go zero value of the pre-commit output. -/
structure Types where
  Address : Type
  SealTicket : Type
  PublicPieceInfo : Type
  RawSealPreCommitOutput : Type
  zeroRspco : RawSealPreCommitOutput
  SectorBuilder : Type
  Remote : Type

/-- `sectorbuilder.WorkerTask`. `Type'` is the Go field `Type`
(`WorkerTaskType`, an `int`); identifiers are `uint64`. -/
structure WorkerTask (τ : Types) where
  Type' : Int
  TaskID : Nat
  SectorID : Nat
  SealTicket : τ.SealTicket
  PublicPieceInfo : τ.PublicPieceInfo

/-- `sectorbuilder.SealRes`, with the two fields the worker sets. `Err` is
`none` for a nil error. -/
structure SealRes (τ : Types) where
  Rspco : τ.RawSealPreCommitOutput
  Err : Option Error

/-- `sectorbuilder.Config`, as filled in by `acceptJobs`. -/
structure Config (τ : Types) where
  SectorSize : Nat
  Miner : τ.Address
  WorkerThreads : Nat
  CacheDir : String
  SealedDir : String
  StagedDir : String

/-- The body of an HTTP response, a stream: the bytes it yields, the error that
ends it instead of EOF (if any), and what `Close` returns. -/
structure Body where
  data : Bytes
  readErr : Option Error
  closeErr : Option Error

/-- `http.Response`, with the fields that matter here. -/
structure Response where
  StatusCode : Nat
  Body : Body

/-- What is outside the program text: the local disk and the rest. -/
structure World (τ : Types) where
  fs : FS
  remote : τ.Remote

/-- The calls the worker makes, as recorded in the state. `recv` is one
receive from the task channel; `fetch` and `push` are the worker's own
methods, recorded on entry. -/
inductive Call (τ : Types) where
  | ActorAddress
  | ActorSectorSize (act : τ.Address)
  | NewStandalone (cfg : Config τ)
  | WorkerQueue
  | recv (task : WorkerTask τ)
  | WorkerDone (taskID : Nat) (res : SealRes τ)
  | logError (err : Error)
  | logWarn (msg : String)
  | fetch (typ : String) (sectorID : Nat)
  | SealPreCommit (sectorID : Nat) (ticket : τ.SealTicket) (pieces : τ.PublicPieceInfo)
  | push (typ : String) (sectorID : Nat)

structure State (τ : Types) where
  world : World τ
  calls : List (Call τ)

/-- The linked packages. Every function is arbitrary; those with effects take
the part of the world they can read and return the part they can change. -/
structure Env (τ : Types) where
  /-- The constant `sectorbuilder.WorkerPreCommit`. -/
  WorkerPreCommit : Int
  /-- The constant `sectorbuilder.WorkerCommit`. -/
  WorkerCommit : Int
  /-- The function `filepath.Join`. -/
  filepathJoin : List String → String
  ActorAddress : τ.Remote → Except Error τ.Address × τ.Remote
  ActorSectorSize : τ.Address → τ.Remote → Except Error Nat × τ.Remote
  /-- The task channel, closed after finitely many tasks, as the list of the
  tasks it delivers. -/
  WorkerQueue : τ.Remote → Except Error (List (WorkerTask τ)) × τ.Remote
  WorkerDone : Nat → SealRes τ → τ.Remote → Option Error × τ.Remote
  /-- Returns both a builder and an error, as in Go. -/
  NewStandalone : Config τ → World τ → (τ.SectorBuilder × Option Error) × World τ
  SectorName : τ.SectorBuilder → Nat → String
  SealPreCommit : τ.SectorBuilder → Nat → τ.SealTicket → τ.PublicPieceInfo →
    World τ → (τ.RawSealPreCommitOutput × Option Error) × World τ
  /-- The function `http.Get`: an error, or a response of any status. -/
  httpGet : String → τ.Remote → Except Error Response × τ.Remote
  /-- The error of `http.NewRequest method url body`, if any. -/
  httpNewRequestErr : String → String → Option Error
  /-- The call `http.DefaultClient.Do` on a request with the given method, URL
  and body bytes. -/
  httpDo : String → String → Bytes → τ.Remote → Except Error Response × τ.Remote
  /-- The error of `os.Create path`, if it fails. -/
  osCreateErr : String → World τ → Option Error
  /-- The error of `os.OpenFile path O_RDONLY`, if it fails on a file that exists. -/
  osOpenErr : String → World τ → Option Error
  /-- The error `os.OpenFile` gives for a path that holds no file. -/
  errNotExist : String → Error
  /-- A failing write to the file at a path: how many of the bytes get written
  before the error, and the error. -/
  writeErr : String → Bytes → World τ → Option (Nat × Error)
  /-- The error of `Close` on the open file at a path, if any. -/
  fileCloseErr : String → World τ → Option Error

/-- The Go struct `worker`; its field `api` is the `api` part of `Env`. -/
structure Worker (τ : Types) where
  minerEndpoint : String
  repo : String
  sb : τ.SectorBuilder

/-! ## Programs -/

/-- How a call ends: it returns a value, or it panics with a message. -/
inductive Outcome (α : Type) where
  | ret (a : α)
  | panic (msg : String)

/-- A program: from a state, an outcome and the state it leaves. -/
def Prog (σ α : Type) : Type := σ → Outcome α × σ

/-- Sequencing: a panic ends the program where it happens. -/
def Prog.bind {σ α β : Type} (m : Prog σ α) (f : α → Prog σ β) : Prog σ β :=
  fun s =>
    match m s with
    | (.ret a, s1) => f a s1
    | (.panic msg, s1) => (.panic msg, s1)

def Prog.pure {σ α : Type} (a : α) : Prog σ α := fun s => (.ret a, s)

instance {σ : Type} : Monad (Prog σ) where
  pure := Prog.pure
  bind := Prog.bind

/-- Go `panic(msg)`. -/
def goPanic {σ α : Type} (msg : String) : Prog σ α := fun s => (.panic msg, s)

variable {τ : Types}

/-- Append a call to the record. -/
def record (c : Call τ) : Prog (State τ) Unit :=
  fun s =>
    match s with
    | ⟨world, calls⟩ => (.ret (), ⟨world, calls ++ [c]⟩)

/-- Run a collaborator that acts on the remote side only. -/
def onRemote {α : Type} (f : τ.Remote → α × τ.Remote) : Prog (State τ) α :=
  fun s =>
    match s with
    | ⟨⟨fs, remote⟩, calls⟩ =>
      match f remote with
      | (a, r) => (.ret a, ⟨⟨fs, r⟩, calls⟩)

/-- Run a collaborator that may act on the whole world. -/
def onWorld {α : Type} (f : World τ → α × World τ) : Prog (State τ) α :=
  fun s =>
    match s with
    | ⟨world, calls⟩ =>
      match f world with
      | (a, wd) => (.ret a, ⟨wd, calls⟩)

/-- A recorded call of a remote collaborator. -/
def callRemote {α : Type} (c : Call τ) (f : τ.Remote → α × τ.Remote) : Prog (State τ) α :=
  Prog.bind (record c) (fun _ => onRemote f)

/-- A recorded call of a collaborator that may act on the whole world. -/
def callWorld {α : Type} (c : Call τ) (f : World τ → α × World τ) : Prog (State τ) α :=
  Prog.bind (record c) (fun _ => onWorld f)

/-- The file system with `path` holding `content`. -/
def FS.set (fs : FS) (path : String) (content : Bytes) : FS :=
  fun p => if p = path then some content else fs p

/-- `os.Create path`: on success the file exists and is empty (created, or
truncated if it was there), and the handle writes to it from offset 0. -/
def osCreate (env : Env τ) (path : String) : Prog (State τ) (Except Error File) :=
  fun s =>
    match s with
    | ⟨⟨fs, remote⟩, calls⟩ =>
      match env.osCreateErr path ⟨fs, remote⟩ with
      | some err => (.ret (.error err), ⟨⟨fs, remote⟩, calls⟩)
      | none => (.ret (.ok ⟨path, false⟩), ⟨⟨fs.set path [], remote⟩, calls⟩)

/-- `os.OpenFile path O_RDONLY 0644`: fails when no file is there. -/
def osOpenFile (env : Env τ) (path : String) : Prog (State τ) (Except Error File) :=
  fun s =>
    match s with
    | ⟨⟨fs, remote⟩, calls⟩ =>
      match fs path with
      | none => (.ret (.error (env.errNotExist path)), ⟨⟨fs, remote⟩, calls⟩)
      | some _ =>
        match env.osOpenErr path ⟨fs, remote⟩ with
        | some err => (.ret (.error err), ⟨⟨fs, remote⟩, calls⟩)
        | none => (.ret (.ok ⟨path, false⟩), ⟨⟨fs, remote⟩, calls⟩)

/-- Write bytes through a handle whose offset is the end of the file. -/
def writeAt (s : State τ) (dst : String) (data : Bytes) : State τ :=
  match s with
  | ⟨⟨fs, remote⟩, calls⟩ => ⟨⟨fs.set dst ((fs dst).getD [] ++ data), remote⟩, calls⟩

/-- `io.Copy(dst, src)` for a file `dst` and a response body `src`, giving the
returned error: a write to a closed file fails; a failing write ends the copy
with its error; otherwise all of the body is written and the error is the one
that ended the body, if any. -/
def ioCopy (env : Env τ) (dst : File) (src : Body) : Prog (State τ) (Option Error) :=
  fun s =>
    match s with
    | ⟨world, calls⟩ =>
      if dst.closed then (.ret (some (errFileClosed "write" dst.path)), ⟨world, calls⟩)
      else
        match env.writeErr dst.path src.data world with
        | some (n, err) =>
          (.ret (some err), writeAt ⟨world, calls⟩ dst.path (src.data.take n))
        | none => (.ret src.readErr, writeAt ⟨world, calls⟩ dst.path src.data)

/-- The call `http.DefaultClient.Do` on a request whose body is the file `f`
(`http.NewRequest` takes an `io.ReadCloser` as the body as it is): the bytes
sent are the content of the file, and the transport closes the body, on success
and on error alike. Gives what `Do` returns and the file as `Do` leaves it. -/
def httpDoFile (env : Env τ) (method url : String) (f : File) :
    Prog (State τ) (Except Error Response × File) :=
  fun s =>
    match s with
    | ⟨⟨fs, remote⟩, calls⟩ =>
      match env.httpDo method url ((fs f.path).getD []) remote with
      | (r, remote1) => (.ret (r, ⟨f.path, true⟩), ⟨⟨fs, remote1⟩, calls⟩)

/-- The call `f.Close()`: an error on a file that is already closed. -/
def fileClose (env : Env τ) (f : File) : Prog (State τ) (Option Error) :=
  fun s =>
    match s with
    | ⟨world, calls⟩ =>
      if f.closed then (.ret (some (errFileClosed "close" f.path)), ⟨world, calls⟩)
      else (.ret (env.fileCloseErr f.path world), ⟨world, calls⟩)

/-! ## The worker (`sub.go`) -/

/-- `errRes`. -/
def errRes (err : Option Error) : SealRes τ :=
  { Rspco := τ.zeroRspco, Err := err }

/-- `worker.fetch`. The two deferred `Close` calls return nothing to the
caller and change nothing in this state. -/
def fetch (env : Env τ) (w : Worker τ) (typ : String) (sectorID : Nat) :
    Prog (State τ) (Option Error) := do
  record (.fetch typ sectorID)
  let outname := env.filepathJoin [w.repo, typ, env.SectorName w.sb sectorID]
  match ← onRemote (env.httpGet
      (w.minerEndpoint ++ "/remote/" ++ typ ++ "/" ++ env.SectorName w.sb sectorID)) with
  | .error err => pure (some err)
  | .ok resp =>
    match ← osCreate env outname with
    | .error err => pure (some err)
    | .ok out => ioCopy env out resp.Body

/-- `worker.push`. The request body is the open file `f` itself, so `f` is
closed by `Do` before `f.Close()` is called. -/
def push (env : Env τ) (w : Worker τ) (typ : String) (sectorID : Nat) :
    Prog (State τ) (Option Error) := do
  record (.push typ sectorID)
  let outname := env.filepathJoin [w.repo, typ, env.SectorName w.sb sectorID]
  match ← osOpenFile env outname with
  | .error err => pure (some err)
  | .ok f =>
    let url := w.minerEndpoint ++ "/remote/" ++ typ ++ "/" ++ env.SectorName w.sb sectorID
    match env.httpNewRequestErr "PUT" url with
    | some err => pure (some err)
    | none =>
      let (r, f) ← httpDoFile env "PUT" url f
      match r with
      | .error err => pure (some err)
      | .ok resp =>
        match ← fileClose env f with
        | some err => pure (some err)
        | none => pure resp.Body.closeErr

/-- `worker.fetchSector`. A Go `switch` tries its cases in order and, with no
`default`, does nothing when none matches. -/
def fetchSector (env : Env τ) (w : Worker τ) (sectorID : Nat) (typ : Int) :
    Prog (State τ) (Option Error) := do
  let err ←
    (if typ = env.WorkerPreCommit then fetch env w "staged" sectorID
     else if typ = env.WorkerCommit then goPanic "todo"
     else pure none : Prog (State τ) (Option Error))
  match err with
  | some err => pure (some (errorfFetchFailed err))
  | none => pure none

/-- `worker.processTask`. -/
def processTask (env : Env τ) (w : Worker τ) (task : WorkerTask τ) :
    Prog (State τ) (SealRes τ) :=
  if task.Type' = env.WorkerPreCommit ∨ task.Type' = env.WorkerCommit then do
    match ← fetchSector env w task.SectorID task.Type' with
    | some err => pure (errRes (some err))
    | none =>
      let res : SealRes τ := { Rspco := τ.zeroRspco, Err := none }
      if task.Type' = env.WorkerPreCommit then do
        let (rspco, err) ←
          callWorld (.SealPreCommit task.SectorID task.SealTicket task.PublicPieceInfo)
            (env.SealPreCommit w.sb task.SectorID task.SealTicket task.PublicPieceInfo)
        match err with
        | some err => pure (errRes (some err))
        | none =>
          let res := { res with Rspco := rspco }
          match ← push env w "sealed" task.SectorID with
          | some err => pure (errRes (some err))
          | none => pure res
      else
        pure res
  else
    pure (errRes (some (errorfUnknownTaskType task.Type')))

/-- The loop `for task := range tasks` of `acceptJobs`, over the tasks the
channel delivers. -/
def jobLoop (env : Env τ) (w : Worker τ) : List (WorkerTask τ) → Prog (State τ) Unit
  | [] => pure ()
  | task :: rest => do
    record (.recv task)
    let res ← processTask env w task
    match ← callRemote (.WorkerDone task.TaskID res) (env.WorkerDone task.TaskID res) with
    | some err => record (.logError err)
    | none => pure ()
    jobLoop env w rest

/-- `acceptJobs`, giving the returned error. -/
def acceptJobs (env : Env τ) (endpoint : String) (repo : String) :
    Prog (State τ) (Option Error) := do
  match ← callRemote .ActorAddress env.ActorAddress with
  | .error err => pure (some err)
  | .ok act =>
    match ← callRemote (.ActorSectorSize act) (env.ActorSectorSize act) with
    | .error err => pure (some err)
    | .ok ssize =>
      let cfg : Config τ :=
        { SectorSize := ssize
          Miner := act
          WorkerThreads := 1
          CacheDir := env.filepathJoin [repo, "cache"]
          SealedDir := env.filepathJoin [repo, "sealed"]
          StagedDir := env.filepathJoin [repo, "staged"] }
      let (sb, _) ← callWorld (.NewStandalone cfg) (env.NewStandalone cfg)
      let w : Worker τ := { minerEndpoint := endpoint, repo := repo, sb := sb }
      match ← callRemote .WorkerQueue env.WorkerQueue with
      | .error err => pure (some err)
      | .ok tasks =>
        jobLoop env w tasks
        record (.logWarn "acceptJobs exit")
        pure none

/-! ## Definitions used to state the properties -/

/-- The environment in which every HTTP response has its status code replaced
by `g` of it, all else equal. -/
def Env.mapStatus (g : Nat → Nat) (env : Env τ) : Env τ :=
  { env with
    httpGet := fun url r =>
      match env.httpGet url r with
      | (.ok resp, r1) => (.ok { resp with StatusCode := g resp.StatusCode }, r1)
      | (.error err, r1) => (.error err, r1)
    httpDo := fun method url body r =>
      match env.httpDo method url body r with
      | (.ok resp, r1) => (.ok { resp with StatusCode := g resp.StatusCode }, r1)
      | (.error err, r1) => (.error err, r1) }

/-- The calls of the intake loop that concern a task of the queue: a receive
from the channel, or a `WorkerDone` report. -/
def Call.isTaskCall : Call τ → Bool
  | .recv _ => true
  | .WorkerDone _ _ => true
  | _ => false

/-- The `WorkerDone` reports among the calls, in order. -/
def doneCalls : List (Call τ) → List (Nat × SealRes τ)
  | [] => []
  | .WorkerDone taskID res :: cs => (taskID, res) :: doneCalls cs
  | _ :: cs => doneCalls cs

/-- What the claim on the intake loop expects to be reported for a queue: for
each task in turn its `TaskID` with the result `processTask` returns for it,
run in the state the loop has reached when it receives the task. -/
def reports (env : Env τ) (w : Worker τ) : List (WorkerTask τ) → State τ → List (Nat × SealRes τ)
  | [], _ => []
  | task :: rest, s =>
    match processTask env w task (record (.recv task) s).2 with
    | (.ret res, _) => (task.TaskID, res) :: reports env w rest (jobLoop env w [task] s).2
    | (.panic _, _) => []

/-- Whether `processTask` returns for each task of the queue, each run in the
state the loop has reached when it receives the task. -/
def allReturn (env : Env τ) (w : Worker τ) : List (WorkerTask τ) → State τ → Bool
  | [], _ => true
  | task :: rest, s =>
    match processTask env w task (record (.recv task) s).2 with
    | (.ret _, _) => allReturn env w rest (jobLoop env w [task] s).2
    | (.panic _, _) => false

/-- The configuration `acceptJobs` builds the sector builder from. -/
def sbConfig (env : Env τ) (repo : String) (act : τ.Address) (ssize : Nat) : Config τ :=
  { SectorSize := ssize
    Miner := act
    WorkerThreads := 1
    CacheDir := env.filepathJoin [repo, "cache"]
    SealedDir := env.filepathJoin [repo, "sealed"]
    StagedDir := env.filepathJoin [repo, "staged"] }

/-- The error of the first of `ActorAddress`, `ActorSectorSize` (on the address
returned) and `WorkerQueue` (called after the constructor) that fails, in the
order `acceptJobs` calls them; `none` when all three succeed. -/
def startupError (env : Env τ) (repo : String) (s : State τ) : Option Error :=
  match env.ActorAddress s.world.remote with
  | (.error err, _) => some err
  | (.ok act, r1) =>
    match env.ActorSectorSize act r1 with
    | (.error err, _) => some err
    | (.ok ssize, r2) =>
      match env.WorkerQueue
          (env.NewStandalone (sbConfig env repo act ssize)
            { fs := s.world.fs, remote := r2 }).2.remote with
      | (.error err, _) => some err
      | (.ok _, _) => none

/-- The environment in which the constructor of the sector builder returns the
error `f` says, all else equal. -/
def Env.withConstructorErr (f : Config τ → World τ → Option Error) (env : Env τ) : Env τ :=
  { env with
    NewStandalone := fun cfg wd =>
      match env.NewStandalone cfg wd with
      | ((sb, _), wd1) => ((sb, f cfg wd), wd1) }

/-- Every call a program adds to the record satisfies `P`. -/
def Adds {α : Type} (P : Call τ → Prop) (m : Prog (State τ) α) : Prop :=
  ∀ s, ∃ l, (m s).2.calls = s.calls ++ l ∧ ∀ c ∈ l, P c

/-! ## A concrete environment

A coordinator that answers every object request with the status code held in
its state and a three-byte body, a sealing library that writes the sealed file
and returns `sectorID + ticket` as its output, paths joined as `filepath.Join`
does on Unix, and a disk on which creating, opening and writing never fail and
closing a file that is still open succeeds. -/

/-- Concrete types: numbers for the data passed around; the state of the
coordinator is the HTTP status code it answers with. -/
def demoTypes : Types where
  Address := Nat
  SealTicket := Nat
  PublicPieceInfo := Nat
  RawSealPreCommitOutput := Nat
  zeroRspco := (0 : Nat)
  SectorBuilder := Unit
  Remote := Nat

def demoName (sectorID : Nat) : String := "s-" ++ toString sectorID

/-- The elements of a path between its slashes. -/
def splitSlash : List Char → List Char → List (List Char)
  | cur, [] => [cur.reverse]
  | cur, c :: cs => if c = '/' then cur.reverse :: splitSlash [] cs else splitSlash (c :: cur) cs

/-- The elements `filepath.Clean` keeps, last one first in `acc`: empty and `.`
elements go, `..` takes the element before it away, and a `..` with nothing
before it stays unless the path is rooted. -/
def cleanParts (rooted : Bool) : List (List Char) → List (List Char) → List (List Char)
  | acc, [] => acc.reverse
  | acc, p :: ps =>
    if p = [] ∨ p = ['.'] then cleanParts rooted acc ps
    else if p = ['.', '.'] then
      match acc with
      | a :: acc1 =>
        if a = ['.', '.'] then cleanParts rooted (p :: acc) ps else cleanParts rooted acc1 ps
      | [] => if rooted then cleanParts rooted [] ps else cleanParts rooted [p] ps
    else cleanParts rooted (p :: acc) ps

/-- The function `filepath.Clean` on a system whose separator is the slash. -/
def unixClean (path : List Char) : List Char :=
  match path with
  | [] => ['.']
  | c :: _ =>
    let rooted := decide (c = '/')
    let body := List.intercalate ['/'] (cleanParts rooted [] (splitSlash [] path))
    if rooted then '/' :: body else if body.isEmpty then ['.'] else body

/-- The function `filepath.Join` on a system whose separator is the slash:
from the first element that is not empty on, the elements joined by slashes,
cleaned; the empty string when there is none. -/
def unixJoin : List String → String
  | [] => ""
  | e :: es =>
    if e = "" then unixJoin es
    else String.mk (unixClean (List.intercalate ['/'] ((e :: es).map String.data)))

def demoBody : Body := { data := [1, 2, 3], readErr := none, closeErr := none }

def demoEnv (queue : List (WorkerTask demoTypes)) : Env demoTypes where
  WorkerPreCommit := 0
  WorkerCommit := 1
  filepathJoin := unixJoin
  ActorAddress := fun r => (.ok (1000 : Nat), r)
  ActorSectorSize := fun _ r => (.ok 1024, r)
  WorkerQueue := fun r => (.ok queue, r)
  WorkerDone := fun taskID _ r =>
    (if taskID % 2 = 1 then some (.new "report lost") else none, r)
  NewStandalone := fun _ w => (((), none), w)
  SectorName := fun _ sectorID => demoName sectorID
  SealPreCommit := fun _ sectorID (ticket : Nat) _ w =>
    match w with
    | ⟨fs, remote⟩ =>
      (((sectorID + ticket : Nat), none),
        ⟨fs.set ("repo/sealed/" ++ demoName sectorID) [9], remote⟩)
  httpGet := fun _ (r : Nat) => (.ok { StatusCode := r, Body := demoBody }, r)
  httpNewRequestErr := fun _ _ => none
  httpDo := fun _ _ _ (r : Nat) => (.ok { StatusCode := r, Body := demoBody }, r)
  osCreateErr := fun _ _ => none
  osOpenErr := fun _ _ => none
  errNotExist := fun path => .new ("open " ++ path ++ ": no such file or directory")
  writeErr := fun _ _ _ => none
  fileCloseErr := fun _ _ => none

/-- The coordinator cannot be reached for a GET. -/
def demoEnvGetFails : Env demoTypes :=
  { demoEnv [] with httpGet := fun _ r => (.error (.new "connection refused"), r) }

/-- The sealing library fails. -/
def demoEnvSealFails : Env demoTypes :=
  { demoEnv [] with SealPreCommit := fun _ _ _ _ w => (((0 : Nat), some (.new "seal failed")), w) }

/-- The coordinator cannot be reached for a PUT. -/
def demoEnvPutFails : Env demoTypes :=
  { demoEnv [] with httpDo := fun _ _ _ r => (.error (.new "broken pipe"), r) }

/-- The coordinator cannot be reached at all. -/
def demoEnvOffline : Env demoTypes :=
  { demoEnv [] with
    httpGet := fun _ r => (.error (.new "connection refused"), r)
    httpDo := fun _ _ _ r => (.error (.new "broken pipe"), r) }

/-- The constructor of the sector builder fails. -/
def demoEnvNoBuilder (queue : List (WorkerTask demoTypes)) : Env demoTypes :=
  { demoEnv queue with NewStandalone := fun _ w => (((), some (.new "no builder")), w) }

/-- The coordinator refuses to hand out the task queue. -/
def demoEnvNoQueue : Env demoTypes :=
  { demoEnv [] with WorkerQueue := fun r => (.error (.new "queue closed"), r) }

def demoWorker : Worker demoTypes := { minerEndpoint := "http://miner", repo := "repo", sb := () }

/-- An empty disk, a coordinator answering with the given status, no call made. -/
def demoState (status : Nat) : State demoTypes :=
  { world := { fs := fun _ => none, remote := status }, calls := [] }

/-- A disk that already holds a staged and a sealed file for sector 7. -/
def demoStateUsed (status : Nat) : State demoTypes :=
  { world :=
      { fs := fun p =>
          if p = "repo/staged/s-7" then some [7, 7, 7, 7]
          else if p = "repo/sealed/s-7" then some [9] else none
        remote := status }
    calls := [] }

def demoTask (typ : Int) (sectorID : Nat) : WorkerTask demoTypes :=
  { Type' := typ, TaskID := 500 + sectorID, SectorID := sectorID, SealTicket := (35 : Nat),
    PublicPieceInfo := (0 : Nat) }

/-! ## Basic facts -/

theorem bind_eq {σ α β : Type} (m : Prog σ α) (f : α → Prog σ β) (s : σ) :
    (m >>= f) s = Prog.bind m f s := rfl

theorem pure_eq {σ α : Type} (a : α) (s : σ) :
    (Pure.pure a : Prog σ α) s = (.ret a, s) := rfl

theorem record_apply (c : Call τ) (s : State τ) :
    record c s = (.ret (), { world := s.world, calls := s.calls ++ [c] }) := rfl

theorem onRemote_apply {α : Type} (f : τ.Remote → α × τ.Remote) (s : State τ) :
    onRemote f s =
      (.ret (f s.world.remote).1,
        { world := { fs := s.world.fs, remote := (f s.world.remote).2 }, calls := s.calls }) :=
  rfl

theorem onWorld_apply {α : Type} (f : World τ → α × World τ) (s : State τ) :
    onWorld f s = (.ret (f s.world).1, { world := (f s.world).2, calls := s.calls }) := rfl

theorem osCreate_apply (env : Env τ) (path : String) (s : State τ) :
    osCreate env path s =
      match env.osCreateErr path s.world with
      | some err => (.ret (.error err), s)
      | none =>
        (.ret (.ok ⟨path, false⟩),
          { world := { fs := s.world.fs.set path [], remote := s.world.remote },
            calls := s.calls }) := rfl

theorem osOpenFile_apply (env : Env τ) (path : String) (s : State τ) :
    osOpenFile env path s =
      match s.world.fs path with
      | none => (.ret (.error (env.errNotExist path)), s)
      | some _ =>
        match env.osOpenErr path s.world with
        | some err => (.ret (.error err), s)
        | none => (.ret (.ok ⟨path, false⟩), s) := rfl

theorem writeAt_apply (s : State τ) (dst : String) (data : Bytes) :
    writeAt s dst data =
      { world := { fs := s.world.fs.set dst ((s.world.fs dst).getD [] ++ data),
                   remote := s.world.remote },
        calls := s.calls } := rfl

/-- Copying to a file that is open. -/
theorem ioCopy_apply (env : Env τ) (dst : String) (src : Body) (s : State τ) :
    ioCopy env ⟨dst, false⟩ src s =
      match env.writeErr dst src.data s.world with
      | some (n, err) => (.ret (some err), writeAt s dst (src.data.take n))
      | none => (.ret src.readErr, writeAt s dst src.data) := rfl

theorem httpDoFile_apply (env : Env τ) (method url : String) (f : File) (s : State τ) :
    httpDoFile env method url f s =
      (.ret ((env.httpDo method url ((s.world.fs f.path).getD []) s.world.remote).1,
          ⟨f.path, true⟩),
        { world :=
            { fs := s.world.fs,
              remote := (env.httpDo method url ((s.world.fs f.path).getD [])
                s.world.remote).2 },
          calls := s.calls }) := rfl

/-- Closing a file that is already closed. -/
theorem fileClose_apply (env : Env τ) (path : String) (s : State τ) :
    fileClose env ⟨path, true⟩ s = (.ret (some (errFileClosed "close" path)), s) := rfl

/-! ## The object transfer records one call and always returns -/

theorem fetch_calls (env : Env τ) (w : Worker τ) (typ : String) (sectorID : Nat) (s : State τ) :
    (fetch env w typ sectorID s).2.calls = s.calls ++ [.fetch typ sectorID] := by
  simp only [fetch, bind_eq, Prog.bind, record_apply, onRemote_apply, pure_eq]
  rcases h1 : env.httpGet _ s.world.remote with ⟨_ | resp, r⟩ <;>
    simp only [bind_eq, Prog.bind, pure_eq, osCreate_apply]
  rcases h2 : env.osCreateErr _ _ with _ | e <;>
    simp only [bind_eq, Prog.bind, pure_eq, ioCopy_apply]
  rcases h3 : env.writeErr _ _ _ with _ | ⟨n, e⟩ <;>
    simp only [bind_eq, Prog.bind, pure_eq, writeAt_apply]

theorem fetch_returns (env : Env τ) (w : Worker τ) (typ : String) (sectorID : Nat) (s : State τ) :
    ∃ r s1, fetch env w typ sectorID s = (.ret r, s1) := by
  simp only [fetch, bind_eq, Prog.bind, record_apply, onRemote_apply, pure_eq]
  rcases h1 : env.httpGet _ s.world.remote with ⟨_ | resp, r⟩ <;>
    simp only [bind_eq, Prog.bind, pure_eq, osCreate_apply]
  · exact ⟨_, _, rfl⟩
  rcases h2 : env.osCreateErr _ _ with _ | e <;>
    simp only [bind_eq, Prog.bind, pure_eq, ioCopy_apply]
  · rcases h3 : env.writeErr _ _ _ with _ | ⟨n, e⟩ <;> exact ⟨_, _, rfl⟩
  · exact ⟨_, _, rfl⟩

theorem push_calls (env : Env τ) (w : Worker τ) (typ : String) (sectorID : Nat) (s : State τ) :
    (push env w typ sectorID s).2.calls = s.calls ++ [.push typ sectorID] := by
  simp only [push, bind_eq, Prog.bind, record_apply, osOpenFile_apply, pure_eq]
  rcases h1 : s.world.fs _ with _ | content <;> simp only [bind_eq, Prog.bind, pure_eq]
  rcases h2 : env.osOpenErr _ _ with _ | e <;> simp only [bind_eq, Prog.bind, pure_eq]
  rcases h3 : env.httpNewRequestErr _ _ with _ | e <;>
    simp only [bind_eq, Prog.bind, pure_eq, httpDoFile_apply]
  rcases h4 : env.httpDo _ _ _ _ with ⟨_ | resp, r⟩ <;>
    simp only [bind_eq, Prog.bind, pure_eq, fileClose_apply]

/-- The upload never returns nil: it returns an error of `OpenFile`,
`NewRequest` or `Do`, and after a `Do` that returned a response it returns the
error of closing the file a second time. -/
theorem push_fails (env : Env τ) (w : Worker τ) (typ : String) (sectorID : Nat) (s : State τ) :
    ∃ e s1, push env w typ sectorID s = (.ret (some e), s1) := by
  simp only [push, bind_eq, Prog.bind, record_apply, osOpenFile_apply, pure_eq]
  rcases h1 : s.world.fs _ with _ | content <;> simp only [bind_eq, Prog.bind, pure_eq]
  · exact ⟨_, _, rfl⟩
  rcases h2 : env.osOpenErr _ _ with _ | e <;> simp only [bind_eq, Prog.bind, pure_eq]
  swap
  · exact ⟨_, _, rfl⟩
  rcases h3 : env.httpNewRequestErr _ _ with _ | e <;>
    simp only [bind_eq, Prog.bind, pure_eq, httpDoFile_apply]
  swap
  · exact ⟨_, _, rfl⟩
  rcases h4 : env.httpDo _ _ _ _ with ⟨_ | resp, r⟩ <;>
    simp only [bind_eq, Prog.bind, pure_eq, fileClose_apply]
  · exact ⟨_, _, rfl⟩
  · exact ⟨_, _, rfl⟩

theorem push_returns (env : Env τ) (w : Worker τ) (typ : String) (sectorID : Nat) (s : State τ) :
    ∃ r s1, push env w typ sectorID s = (.ret r, s1) := by
  obtain ⟨e, s1, h⟩ := push_fails env w typ sectorID s
  exact ⟨some e, s1, h⟩

/-- After a fetch that returns nil, the file holds the bytes of the response
body, and no other path has changed. -/
theorem fetch_success_fs (env : Env τ) (w : Worker τ) (typ : String) (sectorID : Nat)
    (s s1 : State τ) (resp : Response) (r : τ.Remote)
    (hget : env.httpGet
        (w.minerEndpoint ++ "/remote/" ++ typ ++ "/" ++ env.SectorName w.sb sectorID)
        s.world.remote = (.ok resp, r))
    (hok : fetch env w typ sectorID s = (.ret none, s1)) :
    s1.world.fs (env.filepathJoin [w.repo, typ, env.SectorName w.sb sectorID]) =
        some resp.Body.data
      ∧ ∀ p, p ≠ env.filepathJoin [w.repo, typ, env.SectorName w.sb sectorID] →
          s1.world.fs p = s.world.fs p := by
  simp only [fetch, bind_eq, Prog.bind, record_apply, onRemote_apply, pure_eq, hget, osCreate_apply] at hok
  rcases h2 : env.osCreateErr (env.filepathJoin [w.repo, typ, env.SectorName w.sb sectorID])
      { fs := s.world.fs, remote := r } with _ | e <;>
    simp only [h2, bind_eq, Prog.bind, pure_eq, ioCopy_apply] at hok
  · rcases h3 : env.writeErr (env.filepathJoin [w.repo, typ, env.SectorName w.sb sectorID])
        resp.Body.data
        { fs := s.world.fs.set (env.filepathJoin [w.repo, typ, env.SectorName w.sb sectorID]) [],
          remote := r } with _ | ⟨n, e⟩ <;>
      simp only [h3, writeAt_apply, Prod.mk.injEq, Outcome.ret.injEq] at hok
    · obtain ⟨-, rfl⟩ := hok
      refine ⟨by simp [FS.set], fun p hp => by simp [FS.set, hp]⟩
    · exact absurd hok.1 (by simp)
  · simp at hok

/-! ## The branches of the task processor -/

theorem processTask_of_unknown (env : Env τ) (w : Worker τ) (task : WorkerTask τ)
    (s : State τ)
    (hp : task.Type' ≠ env.WorkerPreCommit) (hc : task.Type' ≠ env.WorkerCommit) :
    processTask env w task s =
      (.ret { Rspco := τ.zeroRspco,
              Err := some (.new ("unknown task type " ++ toString task.Type')) }, s) := by
  simp [processTask, hp, hc, pure_eq, errRes, errorfUnknownTaskType]

theorem processTask_of_fetch_err (env : Env τ) (w : Worker τ) (task : WorkerTask τ)
    (s s1 : State τ) (e : Error)
    (hp : task.Type' = env.WorkerPreCommit)
    (hf : fetch env w "staged" task.SectorID s = (.ret (some e), s1)) :
    processTask env w task s =
      (.ret { Rspco := τ.zeroRspco, Err := some (.wrap "fetch failed: " e) }, s1) := by
  simp [processTask, hp, fetchSector, bind_eq, Prog.bind, hf, pure_eq, errRes,
    errorfFetchFailed]

theorem processTask_of_seal_err (env : Env τ) (w : Worker τ) (task : WorkerTask τ)
    (s s1 : State τ) (x : τ.RawSealPreCommitOutput) (e : Error) (wd : World τ)
    (hp : task.Type' = env.WorkerPreCommit)
    (hf : fetch env w "staged" task.SectorID s = (.ret none, s1))
    (hs : env.SealPreCommit w.sb task.SectorID task.SealTicket task.PublicPieceInfo s1.world =
      ((x, some e), wd)) :
    processTask env w task s =
      (.ret { Rspco := τ.zeroRspco, Err := some e },
        { world := wd,
          calls := s1.calls ++
            [.SealPreCommit task.SectorID task.SealTicket task.PublicPieceInfo] }) := by
  simp [processTask, hp, fetchSector, bind_eq, Prog.bind, hf, pure_eq, errRes, callWorld,
    record_apply, onWorld_apply, hs]

theorem processTask_of_push (env : Env τ) (w : Worker τ) (task : WorkerTask τ)
    (s s1 s3 : State τ) (x : τ.RawSealPreCommitOutput) (r : Option Error) (wd : World τ)
    (hp : task.Type' = env.WorkerPreCommit)
    (hf : fetch env w "staged" task.SectorID s = (.ret none, s1))
    (hs : env.SealPreCommit w.sb task.SectorID task.SealTicket task.PublicPieceInfo s1.world =
      ((x, none), wd))
    (hpush : push env w "sealed" task.SectorID
        { world := wd,
          calls := s1.calls ++
            [.SealPreCommit task.SectorID task.SealTicket task.PublicPieceInfo] } =
      (.ret r, s3)) :
    processTask env w task s =
      (.ret (match r with
          | some e => { Rspco := τ.zeroRspco, Err := some e }
          | none => { Rspco := x, Err := none }), s3) := by
  cases r <;>
    simp [processTask, hp, fetchSector, bind_eq, Prog.bind, hf, pure_eq, errRes, callWorld,
      record_apply, onWorld_apply, hs, hpush]

/-! ## The task processor -/

/-- C1. A task whose type is neither `WorkerPreCommit` nor `WorkerCommit` gets
the result with the zero artifact and the error "unknown task type" followed by
the type in decimal, and the state is left as it was: no call to `fetch`,
`SealPreCommit` or `push` (nor any other) is made, whatever the collaborators
would do. -/
theorem processTask_unknown_type (env : Env τ) (w : Worker τ) (task : WorkerTask τ)
    (s : State τ)
    (hp : task.Type' ≠ env.WorkerPreCommit) (hc : task.Type' ≠ env.WorkerCommit) :
    processTask env w task s =
        (.ret { Rspco := τ.zeroRspco,
                Err := some (.new ("unknown task type " ++ toString task.Type')) }, s)
      ∧ (processTask env w task s).2.calls = s.calls := by
  have h := processTask_of_unknown env w task s hp hc
  exact ⟨h, by rw [h]⟩

/-- Witness for C1: type 99 gives "unknown task type 99". -/
theorem processTask_unknown_type_witness :
    processTask (demoEnv []) demoWorker (demoTask 99 7) (demoState 200) =
        (.ret { Rspco := (0 : Nat), Err := some (.new "unknown task type 99") }, demoState 200)
      ∧ (processTask (demoEnv []) demoWorker (demoTask 99 7) (demoState 200)).2.calls = [] :=
  processTask_unknown_type (demoEnv []) demoWorker (demoTask 99 7) (demoState 200)
    (by decide) (by decide)

/-- C3. When the fetch of the staged object of a pre-commit task returns an
error, the result carries that error wrapped as "fetch failed: " and the zero
artifact, and the only call made is that fetch: no `SealPreCommit`, no `push`. -/
theorem processTask_fetch_error (env : Env τ) (w : Worker τ) (task : WorkerTask τ)
    (s s1 : State τ) (e : Error)
    (hp : task.Type' = env.WorkerPreCommit)
    (hf : fetch env w "staged" task.SectorID s = (.ret (some e), s1)) :
    processTask env w task s =
        (.ret { Rspco := τ.zeroRspco, Err := some (.wrap "fetch failed: " e) }, s1)
      ∧ s1.calls = s.calls ++ [.fetch "staged" task.SectorID] := by
  refine ⟨processTask_of_fetch_err env w task s s1 e hp hf, ?_⟩
  · have h := fetch_calls env w "staged" task.SectorID s
    rw [hf] at h
    exact h

/-- Witness for C3: the coordinator refuses the connection. -/
theorem processTask_fetch_error_witness :
    processTask demoEnvGetFails demoWorker (demoTask 0 7) (demoState 200) =
        (.ret { Rspco := (0 : Nat),
                Err := some (.wrap "fetch failed: " (.new "connection refused")) },
          (fetch demoEnvGetFails demoWorker "staged" 7 (demoState 200)).2)
      ∧ (fetch demoEnvGetFails demoWorker "staged" 7 (demoState 200)).2.calls =
          [.fetch "staged" 7] :=
  processTask_fetch_error demoEnvGetFails demoWorker (demoTask 0 7) (demoState 200) _
    (.new "connection refused") rfl rfl

/-- C4. When the fetch succeeds and `SealPreCommit` returns an error, the
result carries exactly that error and the zero artifact, and the calls made are
the fetch and the sealing call: no `push`. -/
theorem processTask_seal_error (env : Env τ) (w : Worker τ) (task : WorkerTask τ)
    (s s1 : State τ) (x : τ.RawSealPreCommitOutput) (e : Error) (wd : World τ)
    (hp : task.Type' = env.WorkerPreCommit)
    (hf : fetch env w "staged" task.SectorID s = (.ret none, s1))
    (hs : env.SealPreCommit w.sb task.SectorID task.SealTicket task.PublicPieceInfo s1.world =
      ((x, some e), wd)) :
    processTask env w task s =
        (.ret { Rspco := τ.zeroRspco, Err := some e },
          { world := wd,
            calls := s.calls ++ [.fetch "staged" task.SectorID,
              .SealPreCommit task.SectorID task.SealTicket task.PublicPieceInfo] }) := by
  have hc := fetch_calls env w "staged" task.SectorID s
  rw [hf] at hc
  simp at hc
  rw [processTask_of_seal_err env w task s s1 x e wd hp hf hs, hc]
  simp

/-- Witness for C4: the sealing library fails on sector 7. -/
theorem processTask_seal_error_witness :
    processTask demoEnvSealFails demoWorker (demoTask 0 7) (demoState 200) =
        (.ret { Rspco := (0 : Nat), Err := some (.new "seal failed") },
          { world := (fetch demoEnvSealFails demoWorker "staged" 7 (demoState 200)).2.world,
            calls := [.fetch "staged" 7, .SealPreCommit 7 (35 : Nat) (0 : Nat)] }) :=
  processTask_seal_error demoEnvSealFails demoWorker (demoTask 0 7) (demoState 200) _
    (0 : Nat) (.new "seal failed") _ rfl rfl rfl

/-- C2. When the fetch succeeds and `SealPreCommit` returns an artifact `x`
without error but the push of the sealed object returns an error, the result is
a failure carrying that error, and its artifact is the zero value: `x` is
dropped. -/
theorem processTask_push_error (env : Env τ) (w : Worker τ) (task : WorkerTask τ)
    (s s1 s3 : State τ) (x : τ.RawSealPreCommitOutput) (e : Error) (wd : World τ)
    (hp : task.Type' = env.WorkerPreCommit)
    (hf : fetch env w "staged" task.SectorID s = (.ret none, s1))
    (hs : env.SealPreCommit w.sb task.SectorID task.SealTicket task.PublicPieceInfo s1.world =
      ((x, none), wd))
    (hpush : push env w "sealed" task.SectorID
        { world := wd,
          calls := s1.calls ++
            [.SealPreCommit task.SectorID task.SealTicket task.PublicPieceInfo] } =
      (.ret (some e), s3)) :
    processTask env w task s = (.ret { Rspco := τ.zeroRspco, Err := some e }, s3)
      ∧ (x ≠ τ.zeroRspco → ∀ res, (processTask env w task s).1 = .ret res → res.Rspco ≠ x) := by
  have h : processTask env w task s = (.ret { Rspco := τ.zeroRspco, Err := some e }, s3) :=
    processTask_of_push env w task s s1 s3 x (some e) wd hp hf hs hpush
  refine ⟨h, fun hx res hres => ?_⟩
  rw [h] at hres
  simp at hres
  rw [← hres]
  exact fun hz => hx hz.symm

/-- Witness for C2: sector 7 is sealed to 42 and the upload breaks. -/
theorem processTask_push_error_witness :
    processTask demoEnvPutFails demoWorker (demoTask 0 7) (demoState 200) =
        (.ret { Rspco := (0 : Nat), Err := some (.new "broken pipe") },
          (processTask demoEnvPutFails demoWorker (demoTask 0 7) (demoState 200)).2)
      ∧ ((42 : Nat) ≠ 0 → ∀ res : SealRes demoTypes,
          (processTask demoEnvPutFails demoWorker (demoTask 0 7) (demoState 200)).1 = .ret res →
            res.Rspco ≠ (42 : Nat)) :=
  processTask_push_error demoEnvPutFails demoWorker (demoTask 0 7) (demoState 200) _ _
    (42 : Nat) (.new "broken pipe") _ rfl rfl rfl rfl

/-- A pre-commit task never gets a success: what comes back carries an error
and the zero artifact, since the upload never returns nil. -/
theorem processTask_precommit_fails (env : Env τ) (w : Worker τ) (task : WorkerTask τ)
    (s : State τ) (hp : task.Type' = env.WorkerPreCommit) :
    ∃ e s1, processTask env w task s = (.ret { Rspco := τ.zeroRspco, Err := some e }, s1) := by
  obtain ⟨r, s1, hf⟩ := fetch_returns env w "staged" task.SectorID s
  cases r with
  | some e => exact ⟨_, _, processTask_of_fetch_err env w task s s1 e hp hf⟩
  | none =>
    rcases hs : env.SealPreCommit w.sb task.SectorID task.SealTicket task.PublicPieceInfo
      s1.world with ⟨⟨x, _ | e⟩, wd⟩
    · obtain ⟨e3, s3, hpush⟩ := push_fails env w "sealed" task.SectorID
        { world := wd,
          calls := s1.calls ++
            [.SealPreCommit task.SectorID task.SealTicket task.PublicPieceInfo] }
      exact ⟨_, _, processTask_of_push env w task s s1 s3 x (some e3) wd hp hf hs hpush⟩
    · exact ⟨_, _, processTask_of_seal_err env w task s s1 x e wd hp hf hs⟩

/-- C5, at the input of its scenario. A pre-commit task for sector 7: the fetch
of the staged object returns nil, `SealPreCommit` returns the artifact 42
without error, the coordinator answers the PUT of the sealed object with
status 200, and the calls made are the fetch, the sealing call and the push,
in this order; yet the result carries the zero artifact and the error of closing
the sealed file, which `Do` had closed already. -/
theorem processTask_sector7_close_error :
    (fetch (demoEnv []) demoWorker "staged" 7 (demoState 200)).1 = .ret none
      ∧ ((demoEnv []).SealPreCommit () 7 (35 : Nat) (0 : Nat)
          (fetch (demoEnv []) demoWorker "staged" 7 (demoState 200)).2.world).1 =
        ((42 : Nat), none)
      ∧ (demoEnv []).httpDo "PUT" "http://miner/remote/sealed/s-7" [9] (200 : Nat) =
        (.ok { StatusCode := 200, Body := demoBody }, (200 : Nat))
      ∧ (processTask (demoEnv []) demoWorker (demoTask 0 7) (demoState 200)).1 =
        .ret { Rspco := (0 : Nat),
               Err := some (.wrap "close repo/sealed/s-7: " (.new "file already closed")) }
      ∧ (processTask (demoEnv []) demoWorker (demoTask 0 7) (demoState 200)).2.calls =
        [.fetch "staged" 7, .SealPreCommit 7 (35 : Nat) (0 : Nat), .push "sealed" 7] :=
  ⟨rfl, rfl, rfl, rfl, rfl⟩

/-! ## Object transfer -/

/-- C9. A fetch that returns nil leaves the file at
`Join(repo, typ, SectorName(sectorID))` holding exactly the bytes served at
`endpoint/remote/typ/SectorName(sectorID)`, whatever the disk held before, and
leaves every other path as it was; a second successful fetch of the same bytes
leaves the same disk as the first. -/
theorem fetch_overwrites (env : Env τ) (w : Worker τ) (typ : String) (sectorID : Nat)
    (s s1 : State τ) (resp : Response) (r : τ.Remote)
    (hget : env.httpGet
        (w.minerEndpoint ++ "/remote/" ++ typ ++ "/" ++ env.SectorName w.sb sectorID)
        s.world.remote = (.ok resp, r))
    (hok : fetch env w typ sectorID s = (.ret none, s1)) :
    s1.world.fs (env.filepathJoin [w.repo, typ, env.SectorName w.sb sectorID]) =
        some resp.Body.data
      ∧ (∀ p, p ≠ env.filepathJoin [w.repo, typ, env.SectorName w.sb sectorID] →
          s1.world.fs p = s.world.fs p)
      ∧ ∀ (resp2 : Response) (r2 : τ.Remote) (s2 : State τ),
          env.httpGet
              (w.minerEndpoint ++ "/remote/" ++ typ ++ "/" ++ env.SectorName w.sb sectorID)
              s1.world.remote = (.ok resp2, r2) →
          resp2.Body.data = resp.Body.data →
          fetch env w typ sectorID s1 = (.ret none, s2) →
          s2.world.fs = s1.world.fs := by
  obtain ⟨h1, h2⟩ := fetch_success_fs env w typ sectorID s s1 resp r hget hok
  refine ⟨h1, h2, fun resp2 r2 s2 hget2 hsame hok2 => ?_⟩
  obtain ⟨k1, k2⟩ := fetch_success_fs env w typ sectorID s1 s2 resp2 r2 hget2 hok2
  funext p
  by_cases hp : p = env.filepathJoin [w.repo, typ, env.SectorName w.sb sectorID]
  · rw [hp, k1, h1, hsame]
  · exact k2 p hp

/-- Witness for C9: sector 7 is fetched onto a disk whose staged file for it
held four other bytes. -/
theorem fetch_overwrites_witness :
    (fetch (demoEnv []) demoWorker "staged" 7 (demoStateUsed 200)).2.world.fs
        "repo/staged/s-7" = some [1, 2, 3]
      ∧ (fetch (demoEnv []) demoWorker "staged" 7 (demoStateUsed 200)).2.world.fs
        "repo/sealed/s-7" = some [9]
      ∧ (fetch (demoEnv []) demoWorker "staged" 7
          (fetch (demoEnv []) demoWorker "staged" 7 (demoStateUsed 200)).2).2.world.fs =
        (fetch (demoEnv []) demoWorker "staged" 7 (demoStateUsed 200)).2.world.fs :=
  have h := fetch_overwrites (demoEnv []) demoWorker "staged" 7 (demoStateUsed 200)
    (fetch (demoEnv []) demoWorker "staged" 7 (demoStateUsed 200)).2
    { StatusCode := 200, Body := demoBody } (200 : Nat) rfl rfl
  ⟨h.1, (h.2.1 "repo/sealed/s-7" (by decide)).trans rfl,
    h.2.2 { StatusCode := 200, Body := demoBody } (200 : Nat) _ rfl rfl rfl⟩

/-- The coordinator answers the GET with status 404: `fetch` returns nil and
the staged file holds the body of the 404 response. -/
theorem fetch_status_404_returns_nil :
    (demoEnv []).httpGet "http://miner/remote/staged/s-7" (404 : Nat) =
        (.ok { StatusCode := 404, Body := demoBody }, (404 : Nat))
      ∧ (fetch (demoEnv []) demoWorker "staged" 7 (demoState 404)).1 = .ret none
      ∧ (fetch (demoEnv []) demoWorker "staged" 7 (demoState 404)).2.world.fs
          "repo/staged/s-7" = some [1, 2, 3] :=
  ⟨rfl, rfl, rfl⟩

theorem fetch_mapStatus (g : Nat → Nat) (env : Env τ) (w : Worker τ) (typ : String)
    (sectorID : Nat) : fetch (env.mapStatus g) w typ sectorID = fetch env w typ sectorID := by
  funext s
  simp only [fetch, bind_eq, Prog.bind, record_apply, onRemote_apply, pure_eq, Env.mapStatus]
  rcases h1 : env.httpGet _ s.world.remote with ⟨_ | resp, r⟩ <;>
    simp only [bind_eq, Prog.bind, pure_eq, osCreate_apply]
  rcases h2 : env.osCreateErr _ _ with _ | e <;>
    simp only [bind_eq, Prog.bind, pure_eq, ioCopy_apply]

theorem push_mapStatus (g : Nat → Nat) (env : Env τ) (w : Worker τ) (typ : String)
    (sectorID : Nat) : push (env.mapStatus g) w typ sectorID = push env w typ sectorID := by
  funext s
  simp only [push, bind_eq, Prog.bind, record_apply, osOpenFile_apply, pure_eq, Env.mapStatus]
  rcases h1 : s.world.fs _ with _ | content <;> simp only [bind_eq, Prog.bind, pure_eq]
  rcases h2 : env.osOpenErr _ _ with _ | e <;> simp only [bind_eq, Prog.bind, pure_eq]
  rcases h3 : env.httpNewRequestErr _ _ with _ | e <;>
    simp only [bind_eq, Prog.bind, pure_eq, httpDoFile_apply]
  rcases h4 : env.httpDo _ _ _ _ with ⟨_ | resp, r⟩ <;>
    simp only [bind_eq, Prog.bind, pure_eq, fileClose_apply]

/-- C7, amended. When the request itself fails (`http.Get`, or
`http.DefaultClient.Do` on a file that opened and a request that was built,
returns an error), `fetch`, and likewise `push`, returns that error. The status
code of a response is never looked at: replacing the status of every response
by any other changes nothing in what `fetch` and `push` return or do, and
`fetch` returns nil on a response of any status once `os.Create` and `io.Copy`
succeed. -/
theorem transfer_ignores_status (env : Env τ) (w : Worker τ) (typ : String)
    (sectorID : Nat) :
    (∀ (s : State τ) (e : Error) (r : τ.Remote),
        env.httpGet
            (w.minerEndpoint ++ "/remote/" ++ typ ++ "/" ++ env.SectorName w.sb sectorID)
            s.world.remote = (.error e, r) →
        (fetch env w typ sectorID s).1 = .ret (some e))
      ∧ (∀ (s : State τ) (e : Error) (r : τ.Remote) (content : Bytes),
        s.world.fs (env.filepathJoin [w.repo, typ, env.SectorName w.sb sectorID]) =
            some content →
        env.osOpenErr (env.filepathJoin [w.repo, typ, env.SectorName w.sb sectorID])
            s.world = none →
        env.httpNewRequestErr "PUT"
            (w.minerEndpoint ++ "/remote/" ++ typ ++ "/" ++ env.SectorName w.sb sectorID) =
          none →
        env.httpDo "PUT"
            (w.minerEndpoint ++ "/remote/" ++ typ ++ "/" ++ env.SectorName w.sb sectorID)
            content s.world.remote = (.error e, r) →
        (push env w typ sectorID s).1 = .ret (some e))
      ∧ (∀ g : Nat → Nat,
          fetch (env.mapStatus g) w typ sectorID = fetch env w typ sectorID
            ∧ push (env.mapStatus g) w typ sectorID = push env w typ sectorID)
      ∧ ∀ (s : State τ) (resp : Response) (r : τ.Remote),
        env.httpGet
            (w.minerEndpoint ++ "/remote/" ++ typ ++ "/" ++ env.SectorName w.sb sectorID)
            s.world.remote = (.ok resp, r) →
        env.osCreateErr (env.filepathJoin [w.repo, typ, env.SectorName w.sb sectorID])
            { fs := s.world.fs, remote := r } = none →
        env.writeErr (env.filepathJoin [w.repo, typ, env.SectorName w.sb sectorID])
            resp.Body.data
            { fs := s.world.fs.set
                (env.filepathJoin [w.repo, typ, env.SectorName w.sb sectorID]) [],
              remote := r } = none →
        resp.Body.readErr = none →
        (fetch env w typ sectorID s).1 = .ret none := by
  refine ⟨?_, ?_, fun g => ⟨fetch_mapStatus g env w typ sectorID,
    push_mapStatus g env w typ sectorID⟩, ?_⟩
  · intro s e r hget
    simp only [fetch, bind_eq, Prog.bind, record_apply, onRemote_apply, pure_eq, hget]
  · intro s e r content hfile hopen hreq hdo
    simp only [push, bind_eq, Prog.bind, record_apply, osOpenFile_apply, pure_eq, hfile, hopen,
      hreq, httpDoFile_apply, Option.getD_some, hdo]
  · intro s resp r hget hcreate hwrite hread
    simp only [fetch, bind_eq, Prog.bind, record_apply, onRemote_apply, pure_eq, hget,
      osCreate_apply, hcreate, ioCopy_apply, hwrite, hread]

/-- Witness for C7 amended. A coordinator that answers 404: `fetch` returns nil,
and does the same as under the environment that turns every status into 200,
whose response to the same request differs in the status; so does `push` under
a coordinator that answers 500. A coordinator that cannot be reached: `fetch`
and `push` return the error of the request. -/
theorem transfer_ignores_status_witness :
    ((demoEnv []).httpGet "http://miner/remote/staged/s-7" (404 : Nat)).1 =
        .ok { StatusCode := 404, Body := demoBody }
      ∧ (((demoEnv []).mapStatus (fun _ => 200)).httpGet "http://miner/remote/staged/s-7"
          (404 : Nat)).1 = .ok { StatusCode := 200, Body := demoBody }
      ∧ (fetch (demoEnv []) demoWorker "staged" 7 (demoState 404)).1 = .ret none
      ∧ fetch ((demoEnv []).mapStatus (fun _ => 200)) demoWorker "staged" 7 (demoState 404) =
          fetch (demoEnv []) demoWorker "staged" 7 (demoState 404)
      ∧ push ((demoEnv []).mapStatus (fun _ => 200)) demoWorker "sealed" 7 (demoStateUsed 500) =
          push (demoEnv []) demoWorker "sealed" 7 (demoStateUsed 500)
      ∧ (fetch demoEnvOffline demoWorker "sealed" 7 (demoStateUsed 200)).1 =
          .ret (some (.new "connection refused"))
      ∧ (push demoEnvOffline demoWorker "sealed" 7 (demoStateUsed 200)).1 =
          .ret (some (.new "broken pipe")) :=
  ⟨rfl, rfl,
    (transfer_ignores_status (demoEnv []) demoWorker "staged" 7).2.2.2 (demoState 404)
      { StatusCode := 404, Body := demoBody } (404 : Nat) rfl rfl rfl rfl,
    congrFun ((transfer_ignores_status (demoEnv []) demoWorker "staged" 7).2.2.1
      (fun _ => 200)).1 (demoState 404),
    congrFun ((transfer_ignores_status (demoEnv []) demoWorker "sealed" 7).2.2.1
      (fun _ => 200)).2 (demoStateUsed 500),
    (transfer_ignores_status demoEnvOffline demoWorker "sealed" 7).1 (demoStateUsed 200)
      (.new "connection refused") (200 : Nat) rfl,
    (transfer_ignores_status demoEnvOffline demoWorker "sealed" 7).2.1 (demoStateUsed 200)
      (.new "broken pipe") (200 : Nat) [9] rfl rfl rfl rfl⟩

/-! ## Calls added to the record -/

theorem adds_pure {α : Type} (P : Call τ → Prop) (a : α) :
    Adds P (Pure.pure a : Prog (State τ) α) :=
  fun s => ⟨[], by simp [pure_eq], by simp⟩

theorem adds_bind {α β : Type} (P : Call τ → Prop) (m : Prog (State τ) α)
    (f : α → Prog (State τ) β) (hm : Adds P m) (hf : ∀ a, Adds P (f a)) :
    Adds P (Prog.bind m f) := by
  intro s
  obtain ⟨l, hl, hP⟩ := hm s
  rcases h : m s with ⟨a | msg, s1⟩
  · obtain ⟨l2, hl2, hP2⟩ := hf a s1
    rw [h] at hl
    refine ⟨l ++ l2, ?_, ?_⟩
    · simp only [Prog.bind, h, hl2]
      simp at hl
      simp [hl]
    · intro c hc
      rcases List.mem_append.1 hc with hc | hc
      · exact hP c hc
      · exact hP2 c hc
  · rw [h] at hl
    exact ⟨l, by simpa [Prog.bind, h] using hl, hP⟩

theorem adds_fetch (P : Call τ → Prop) (env : Env τ) (w : Worker τ) (typ : String)
    (sectorID : Nat) (h : P (.fetch typ sectorID)) : Adds P (fetch env w typ sectorID) :=
  fun s => ⟨[.fetch typ sectorID], fetch_calls env w typ sectorID s, by simpa using h⟩

theorem adds_push (P : Call τ → Prop) (env : Env τ) (w : Worker τ) (typ : String)
    (sectorID : Nat) (h : P (.push typ sectorID)) : Adds P (push env w typ sectorID) :=
  fun s => ⟨[.push typ sectorID], push_calls env w typ sectorID s, by simpa using h⟩

theorem adds_callWorld {α : Type} (P : Call τ → Prop) (c : Call τ)
    (f : World τ → α × World τ) (h : P c) : Adds P (callWorld c f) :=
  fun s => ⟨[c], by
    rcases hf : f s.world with ⟨a, wd⟩
    simp [callWorld, Prog.bind, record_apply, onWorld_apply, hf], by simpa using h⟩

theorem adds_callRemote {α : Type} (P : Call τ → Prop) (c : Call τ)
    (f : τ.Remote → α × τ.Remote) (h : P c) : Adds P (callRemote c f) :=
  fun s => ⟨[c], by
    rcases hf : f s.world.remote with ⟨a, r⟩
    simp [callRemote, Prog.bind, record_apply, onRemote_apply, hf], by simpa using h⟩

theorem adds_record (P : Call τ → Prop) (c : Call τ) (h : P c) : Adds P (record c) :=
  fun s => ⟨[c], by simp [record_apply], by simpa using h⟩

theorem adds_goPanic {α : Type} (P : Call τ → Prop) (msg : String) :
    Adds P (goPanic msg : Prog (State τ) α) :=
  fun s => ⟨[], by simp [goPanic], by simp⟩

theorem adds_fetchSector (P : Call τ → Prop) (env : Env τ) (w : Worker τ) (sectorID : Nat)
    (typ : Int) (h : ∀ t, P (.fetch t sectorID)) : Adds P (fetchSector env w sectorID typ) := by
  unfold fetchSector
  refine adds_bind P _ _ ?_ ?_
  · split
    · exact adds_fetch P env w _ _ (h _)
    · split
      · exact adds_goPanic P _
      · exact adds_pure P _
  · intro a
    cases a
    · exact adds_pure P _
    · exact adds_pure P _

/-- The calls `processTask` adds are calls of `fetch`, `SealPreCommit` and
`push` on the sector of the task. -/
theorem adds_processTask (P : Call τ → Prop) (env : Env τ) (w : Worker τ)
    (task : WorkerTask τ)
    (hf : ∀ t, P (.fetch t task.SectorID))
    (hs : P (.SealPreCommit task.SectorID task.SealTicket task.PublicPieceInfo))
    (hp : ∀ t, P (.push t task.SectorID)) : Adds P (processTask env w task) := by
  unfold processTask
  split
  · refine adds_bind P _ _ (adds_fetchSector P env w _ _ hf) ?_
    intro a
    cases a
    · simp only []
      split
      · refine adds_bind P _ _ (adds_callWorld P _ _ hs) ?_
        rintro ⟨rspco, _ | e⟩
        · simp only []
          refine adds_bind P _ _ (adds_push P env w _ _ (hp _)) ?_
          intro b
          cases b
          · exact adds_pure P _
          · exact adds_pure P _
        · exact adds_pure P _
      · exact adds_pure P _
    · exact adds_pure P _
  · exact adds_pure P _

theorem doneCalls_append (l1 l2 : List (Call τ)) :
    doneCalls (l1 ++ l2) = doneCalls l1 ++ doneCalls l2 := by
  induction l1 with
  | nil => rfl
  | cons c cs ih => cases c <;> simp [doneCalls, ih]

theorem doneCalls_eq_nil (l : List (Call τ)) (h : ∀ c ∈ l, c.isTaskCall = false) :
    doneCalls l = [] := by
  induction l with
  | nil => rfl
  | cons c cs ih =>
    have hc := h c (by simp)
    have ih1 := ih (fun c1 hc1 => h c1 (by simp [hc1]))
    cases c <;> simp_all [doneCalls, Call.isTaskCall]

/-- The calls `processTask` adds are no receives and no reports. -/
theorem processTask_calls (env : Env τ) (w : Worker τ) (task : WorkerTask τ) (s : State τ) :
    ∃ l, (processTask env w task s).2.calls = s.calls ++ l ∧
      ∀ c ∈ l, c.isTaskCall = false :=
  adds_processTask (fun c => c.isTaskCall = false) env w task (fun _ => rfl) rfl (fun _ => rfl) s

/-! ## One turn of the intake loop -/

theorem processTask_returns (env : Env τ) (w : Worker τ) (task : WorkerTask τ) (s : State τ)
    (h : task.Type' = env.WorkerPreCommit ∨ task.Type' ≠ env.WorkerCommit) :
    ∃ res s1, processTask env w task s = (.ret res, s1) := by
  by_cases hp : task.Type' = env.WorkerPreCommit
  · obtain ⟨r, s1, hf⟩ := fetch_returns env w "staged" task.SectorID s
    cases r with
    | some e => exact ⟨_, _, processTask_of_fetch_err env w task s s1 e hp hf⟩
    | none =>
      rcases hs : env.SealPreCommit w.sb task.SectorID task.SealTicket task.PublicPieceInfo
        s1.world with ⟨⟨x, _ | e⟩, wd⟩
      · obtain ⟨r3, s3, hpush⟩ := push_returns env w "sealed" task.SectorID
          { world := wd,
            calls := s1.calls ++
              [.SealPreCommit task.SectorID task.SealTicket task.PublicPieceInfo] }
        exact ⟨_, _, processTask_of_push env w task s s1 s3 x r3 wd hp hf hs hpush⟩
      · exact ⟨_, _, processTask_of_seal_err env w task s s1 x e wd hp hf hs⟩
  · have hc : task.Type' ≠ env.WorkerCommit := by
      rcases h with h | h
      · exact absurd h hp
      · exact h
    exact ⟨_, _, processTask_of_unknown env w task s hp hc⟩

theorem processTask_commit_panics (env : Env τ) (w : Worker τ) (task : WorkerTask τ)
    (s : State τ) (hp : task.Type' ≠ env.WorkerPreCommit) (hc : task.Type' = env.WorkerCommit) :
    processTask env w task s = (.panic "todo", s) := by
  have hp1 : ¬ env.WorkerCommit = env.WorkerPreCommit := by rw [← hc]; exact hp
  simp [processTask, hc, hp1, fetchSector, bind_eq, Prog.bind, goPanic]

/-- When `processTask` returns for the task at the head of the queue, the loop
reports the result and goes on with the rest of the queue. -/
theorem jobLoop_cons_ret (env : Env τ) (w : Worker τ) (task : WorkerTask τ)
    (rest : List (WorkerTask τ)) (s s1 : State τ) (res : SealRes τ)
    (h : processTask env w task (record (.recv task) s).2 = (.ret res, s1)) :
    ∃ s2 l, jobLoop env w (task :: rest) s = jobLoop env w rest s2
      ∧ jobLoop env w [task] s = (.ret (), s2)
      ∧ s2.calls = s1.calls ++ .WorkerDone task.TaskID res :: l
      ∧ ∀ c ∈ l, c.isTaskCall = false := by
  have h1 : processTask env w task { world := s.world, calls := s.calls ++ [.recv task] } =
      (.ret res, s1) := h
  rcases hd : env.WorkerDone task.TaskID res s1.world.remote with ⟨_ | err, r⟩
  · refine ⟨{ world := { fs := s1.world.fs, remote := r },
              calls := s1.calls ++ [.WorkerDone task.TaskID res] }, [], ?_, ?_, by simp, by simp⟩
    · simp only [jobLoop, bind_eq, Prog.bind, record_apply, h1, callRemote, onRemote_apply, hd, pure_eq]
    · simp only [jobLoop, bind_eq, Prog.bind, record_apply, h1, callRemote, onRemote_apply, hd, pure_eq]
  · refine ⟨{ world := { fs := s1.world.fs, remote := r },
              calls := s1.calls ++ [.WorkerDone task.TaskID res] ++ [.logError err] },
            [.logError err], ?_, ?_, by simp, by simp [Call.isTaskCall]⟩
    · simp only [jobLoop, bind_eq, Prog.bind, record_apply, h1, callRemote, onRemote_apply, hd, pure_eq]
    · simp only [jobLoop, bind_eq, Prog.bind, record_apply, h1, callRemote, onRemote_apply, hd, pure_eq]

/-- When `processTask` panics for the task at the head of the queue, so does
the loop, there and then. -/
theorem jobLoop_cons_panic (env : Env τ) (w : Worker τ) (task : WorkerTask τ)
    (rest : List (WorkerTask τ)) (s s1 : State τ) (msg : String)
    (h : processTask env w task (record (.recv task) s).2 = (.panic msg, s1)) :
    jobLoop env w (task :: rest) s = (.panic msg, s1) := by
  have h1 : processTask env w task { world := s.world, calls := s.calls ++ [.recv task] } =
      (.panic msg, s1) := h
  simp only [jobLoop, bind_eq, Prog.bind, record_apply, h1]

/-- C6, amended. For every task whose type is not `WorkerCommit` (an unknown
type, or `WorkerPreCommit`), and whatever the collaborators return,
`processTask` returns a result, and the intake loop reports that result with
`WorkerDone` and goes on with the rest of the queue. For a task of type
`WorkerCommit`, `processTask` panics with "todo" before any call is made, and
the loop panics with it: no `WorkerDone` for that task. -/
theorem processTask_returns_unless_commit (env : Env τ) (w : Worker τ) (task : WorkerTask τ)
    (rest : List (WorkerTask τ)) (s : State τ) :
    ((task.Type' = env.WorkerPreCommit ∨ task.Type' ≠ env.WorkerCommit) →
        (∀ s0, ∃ res s1, processTask env w task s0 = (.ret res, s1))
          ∧ ∃ res s1 s2 l, processTask env w task (record (.recv task) s).2 = (.ret res, s1)
              ∧ s2.calls = s1.calls ++ .WorkerDone task.TaskID res :: l
              ∧ jobLoop env w (task :: rest) s = jobLoop env w rest s2)
      ∧ (task.Type' ≠ env.WorkerPreCommit → task.Type' = env.WorkerCommit →
          (∀ s0, processTask env w task s0 = (.panic "todo", s0))
            ∧ jobLoop env w (task :: rest) s = (.panic "todo", (record (.recv task) s).2)) := by
  refine ⟨fun h => ⟨fun s0 => processTask_returns env w task s0 h, ?_⟩, fun hp hc => ⟨fun s0 =>
    processTask_commit_panics env w task s0 hp hc, ?_⟩⟩
  · obtain ⟨res, s1, h1⟩ := processTask_returns env w task (record (.recv task) s).2 h
    obtain ⟨s2, l, h2, -, h3, -⟩ := jobLoop_cons_ret env w task rest s s1 res h1
    exact ⟨res, s1, s2, l, h1, h3, h2⟩
  · exact jobLoop_cons_panic env w task rest s _ _
      (processTask_commit_panics env w task _ hp hc)

/-- Witness for C6 amended: a pre-commit task for sector 7 gets a result. -/
theorem processTask_returns_unless_commit_witness :
    (∀ s0, ∃ res s1, processTask (demoEnv []) demoWorker (demoTask 0 7) s0 = (.ret res, s1))
      ∧ ∃ res s1 s2 l,
          processTask (demoEnv []) demoWorker (demoTask 0 7)
              (record (.recv (demoTask 0 7)) (demoState 200)).2 = (.ret res, s1)
            ∧ s2.calls = s1.calls ++ .WorkerDone (demoTask 0 7).TaskID res :: l
            ∧ jobLoop (demoEnv []) demoWorker [demoTask 0 7, demoTask 99 8] (demoState 200) =
                jobLoop (demoEnv []) demoWorker [demoTask 99 8] s2 :=
  (processTask_returns_unless_commit (demoEnv []) demoWorker (demoTask 0 7) [demoTask 99 8]
    (demoState 200)).1 (Or.inl rfl)

/-- A queue holding one task of type `WorkerCommit`: `processTask` panics with
"todo" without making a call, `acceptJobs` panics with it, and no `WorkerDone`
is ever called. -/
theorem processTask_commit_task_panics :
    processTask (demoEnv []) demoWorker (demoTask 1 7) (demoState 200) =
        (.panic "todo", demoState 200)
      ∧ (acceptJobs (demoEnv [demoTask 1 7]) "http://miner" "repo" (demoState 200)).1 =
        .panic "todo"
      ∧ doneCalls
          (acceptJobs (demoEnv [demoTask 1 7]) "http://miner" "repo" (demoState 200)).2.calls =
        [] :=
  ⟨rfl, rfl, rfl⟩

/-! ## The intake loop -/

/-- After a successful startup, `acceptJobs` is the loop over the queue, the
exit warning, and a nil return. -/
theorem acceptJobs_of_startup (env : Env τ) (endpoint repo : String) (s : State τ)
    (act : τ.Address) (r1 r2 r4 : τ.Remote) (ssize : Nat) (sb : τ.SectorBuilder)
    (cerr : Option Error) (wd : World τ) (tasks : List (WorkerTask τ))
    (hAA : env.ActorAddress s.world.remote = (.ok act, r1))
    (hSS : env.ActorSectorSize act r1 = (.ok ssize, r2))
    (hNS : env.NewStandalone (sbConfig env repo act ssize) { fs := s.world.fs, remote := r2 } =
      ((sb, cerr), wd))
    (hWQ : env.WorkerQueue wd.remote = (.ok tasks, r4)) :
    acceptJobs env endpoint repo s =
      Prog.bind (jobLoop env { minerEndpoint := endpoint, repo := repo, sb := sb } tasks)
        (fun _ => Prog.bind (record (.logWarn "acceptJobs exit")) (fun _ => Prog.pure none))
        { world := { fs := wd.fs, remote := r4 },
          calls := s.calls ++ [.ActorAddress, .ActorSectorSize act,
            .NewStandalone (sbConfig env repo act ssize), .WorkerQueue] } := by
  have hNS1 : env.NewStandalone
      { SectorSize := ssize, Miner := act, WorkerThreads := 1,
        CacheDir := env.filepathJoin [repo, "cache"],
        SealedDir := env.filepathJoin [repo, "sealed"],
        StagedDir := env.filepathJoin [repo, "staged"] }
      { fs := s.world.fs, remote := r2 } = ((sb, cerr), wd) := hNS
  simp only [acceptJobs, bind_eq, Prog.bind, callRemote, record_apply, onRemote_apply, hAA, hSS,
    callWorld, onWorld_apply, hNS1, hWQ, List.append_assoc, List.singleton_append, sbConfig]
  rfl

theorem jobLoop_reports (env : Env τ) (w : Worker τ) :
    ∀ (tasks : List (WorkerTask τ)) (s : State τ), allReturn env w tasks s = true →
      ∃ s1, jobLoop env w tasks s = (.ret (), s1)
        ∧ doneCalls s1.calls = doneCalls s.calls ++ reports env w tasks s
        ∧ (reports env w tasks s).map Prod.fst = tasks.map (fun t => t.TaskID) := by
  intro tasks
  induction tasks with
  | nil => intro s _; exact ⟨s, rfl, by simp [reports], by simp [reports]⟩
  | cons task rest ih =>
    intro s hall
    rcases h : processTask env w task (record (.recv task) s).2 with ⟨res | msg, s1⟩
    · obtain ⟨s2, l, h2, h3, h4, h5⟩ := jobLoop_cons_ret env w task rest s s1 res h
      have hall2 : allReturn env w rest s2 = true := by
        simp only [allReturn, h, h3] at hall
        exact hall
      obtain ⟨s3, k1, k2, k3⟩ := ih s2 hall2
      obtain ⟨lp, hlp, hlp2⟩ := processTask_calls env w task (record (.recv task) s).2
      rw [h] at hlp
      have hs1 : doneCalls s1.calls = doneCalls s.calls := by
        have : s1.calls = s.calls ++ ([.recv task] ++ lp) := by
          simpa [record_apply] using hlp
        rw [this, doneCalls_append, doneCalls_append, doneCalls_eq_nil lp hlp2]
        simp [doneCalls]
      have hs2 : doneCalls s2.calls = doneCalls s.calls ++ [(task.TaskID, res)] := by
        have : s2.calls = s1.calls ++ ([.WorkerDone task.TaskID res] ++ l) := by
          simpa using h4
        rw [this, doneCalls_append, doneCalls_append, doneCalls_eq_nil l h5, hs1]
        simp [doneCalls]
      refine ⟨s3, h2.trans k1, ?_, ?_⟩
      · rw [k2, hs2]
        simp [reports, h, h3]
      · simp [reports, h, h3, k3]
    · simp [allReturn, h] at hall

/-- C8. For a finite queue on which startup succeeds and `processTask` returns
for each task, `acceptJobs` returns nil, and the `WorkerDone` calls it makes
are exactly one per task, in queue order, the one for a task being
`WorkerDone(task.TaskID, res)` with `res` what `processTask` returned for it;
this holds whatever the `WorkerDone` calls return. -/
theorem acceptJobs_reports_every_task (env : Env τ) (endpoint repo : String) (s : State τ)
    (act : τ.Address) (r1 r2 r4 : τ.Remote) (ssize : Nat) (sb : τ.SectorBuilder)
    (cerr : Option Error) (wd : World τ) (tasks : List (WorkerTask τ))
    (hAA : env.ActorAddress s.world.remote = (.ok act, r1))
    (hSS : env.ActorSectorSize act r1 = (.ok ssize, r2))
    (hNS : env.NewStandalone (sbConfig env repo act ssize) { fs := s.world.fs, remote := r2 } =
      ((sb, cerr), wd))
    (hWQ : env.WorkerQueue wd.remote = (.ok tasks, r4))
    (hret : allReturn env { minerEndpoint := endpoint, repo := repo, sb := sb } tasks
      { world := { fs := wd.fs, remote := r4 },
        calls := s.calls ++ [.ActorAddress, .ActorSectorSize act,
          .NewStandalone (sbConfig env repo act ssize), .WorkerQueue] } = true) :
    ∃ s1, acceptJobs env endpoint repo s = (.ret none, s1)
      ∧ doneCalls s1.calls = doneCalls s.calls ++
          reports env { minerEndpoint := endpoint, repo := repo, sb := sb } tasks
            { world := { fs := wd.fs, remote := r4 },
              calls := s.calls ++ [.ActorAddress, .ActorSectorSize act,
                .NewStandalone (sbConfig env repo act ssize), .WorkerQueue] }
      ∧ (doneCalls s1.calls).length = (doneCalls s.calls).length + tasks.length
      ∧ (reports env { minerEndpoint := endpoint, repo := repo, sb := sb } tasks
            { world := { fs := wd.fs, remote := r4 },
              calls := s.calls ++ [.ActorAddress, .ActorSectorSize act,
                .NewStandalone (sbConfig env repo act ssize), .WorkerQueue] }).map Prod.fst =
          tasks.map (fun t => t.TaskID) := by
  obtain ⟨s1, k1, k2, k3⟩ := jobLoop_reports env
    { minerEndpoint := endpoint, repo := repo, sb := sb } tasks _ hret
  refine ⟨{ s1 with calls := s1.calls ++ [.logWarn "acceptJobs exit"] }, ?_, ?_, ?_, k3⟩
  · rw [acceptJobs_of_startup env endpoint repo s act r1 r2 r4 ssize sb cerr wd tasks
      hAA hSS hNS hWQ]
    simp only [Prog.bind, k1, record_apply, Prog.pure]
  · simp only [doneCalls_append, k2]
    simp [doneCalls, doneCalls_append]
  · simp only [doneCalls_append, k2]
    have hlen := congrArg List.length k3
    simp only [List.length_map] at hlen
    simp [doneCalls, doneCalls_append, hlen]

/-- Witness for C8: a queue of a pre-commit task for sector 7, whose report is
lost, and a task of unknown type for sector 8. -/
theorem acceptJobs_reports_every_task_witness :
    (∃ s1, acceptJobs (demoEnv [demoTask 0 7, demoTask 99 8]) "http://miner" "repo"
          (demoState 200) = (.ret none, s1)
      ∧ doneCalls s1.calls = doneCalls (demoState 200).calls ++
          reports (demoEnv [demoTask 0 7, demoTask 99 8]) demoWorker
            [demoTask 0 7, demoTask 99 8]
            { world := { fs := (demoState 200).world.fs, remote := (200 : Nat) },
              calls := (demoState 200).calls ++ [.ActorAddress, .ActorSectorSize (1000 : Nat),
                .NewStandalone (sbConfig (demoEnv [demoTask 0 7, demoTask 99 8]) "repo"
                  (1000 : Nat) 1024), .WorkerQueue] }
      ∧ (doneCalls s1.calls).length = (doneCalls (demoState 200).calls).length + 2
      ∧ (reports (demoEnv [demoTask 0 7, demoTask 99 8]) demoWorker
            [demoTask 0 7, demoTask 99 8]
            { world := { fs := (demoState 200).world.fs, remote := (200 : Nat) },
              calls := (demoState 200).calls ++ [.ActorAddress, .ActorSectorSize (1000 : Nat),
                .NewStandalone (sbConfig (demoEnv [demoTask 0 7, demoTask 99 8]) "repo"
                  (1000 : Nat) 1024), .WorkerQueue] }).map Prod.fst = [507, 508])
      ∧ doneCalls (acceptJobs (demoEnv [demoTask 0 7, demoTask 99 8]) "http://miner" "repo"
          (demoState 200)).2.calls =
        [(507, { Rspco := (0 : Nat),
                 Err := some (.wrap "close repo/sealed/s-7: " (.new "file already closed")) }),
         (508, { Rspco := (0 : Nat), Err := some (.new "unknown task type 99") })] :=
  ⟨acceptJobs_reports_every_task (demoEnv [demoTask 0 7, demoTask 99 8]) "http://miner" "repo"
    (demoState 200) (1000 : Nat) (200 : Nat) (200 : Nat) (200 : Nat) 1024 () none
    (demoState 200).world [demoTask 0 7, demoTask 99 8] rfl rfl rfl rfl rfl, rfl⟩

/-! ## Startup -/

theorem adds_jobLoop (env : Env τ) (w : Worker τ) (tasks : List (WorkerTask τ)) :
    Adds (fun _ => True) (jobLoop env w tasks) := by
  induction tasks with
  | nil => exact adds_pure _ _
  | cons task rest ih =>
    unfold jobLoop
    refine adds_bind _ _ _ (adds_record _ _ trivial) (fun _ => ?_)
    refine adds_bind _ _ _
      (adds_processTask _ env w task (fun _ => trivial) trivial (fun _ => trivial)) (fun res => ?_)
    refine adds_bind _ _ _ (adds_callRemote _ _ _ trivial) (fun r => ?_)
    cases r
    · exact adds_bind _ _ _ (adds_pure _ _) (fun _ => ih)
    · exact adds_bind _ _ _ (adds_record _ _ trivial) (fun _ => ih)

/-- The loop on a queue that is not empty starts by receiving its first task. -/
theorem jobLoop_cons_calls (env : Env τ) (w : Worker τ) (task : WorkerTask τ)
    (rest : List (WorkerTask τ)) (s : State τ) :
    ∃ l, (jobLoop env w (task :: rest) s).2.calls = s.calls ++ .recv task :: l := by
  rcases h : processTask env w task (record (.recv task) s).2 with ⟨res | msg, s1⟩
  · obtain ⟨s2, l, h2, -, h4, -⟩ := jobLoop_cons_ret env w task rest s s1 res h
    obtain ⟨lp, hlp, -⟩ := processTask_calls env w task (record (.recv task) s).2
    obtain ⟨l3, hl3, -⟩ := adds_jobLoop env w rest s2
    rw [h] at hlp
    refine ⟨lp ++ .WorkerDone task.TaskID res :: l ++ l3, ?_⟩
    rw [h2, hl3, h4]
    have : s1.calls = s.calls ++ [.recv task] ++ lp := hlp
    rw [this]
    simp
  · obtain ⟨lp, hlp, -⟩ := processTask_calls env w task (record (.recv task) s).2
    rw [h] at hlp
    refine ⟨lp, ?_⟩
    rw [jobLoop_cons_panic env w task rest s s1 msg h]
    have : s1.calls = s.calls ++ [.recv task] ++ lp := hlp
    rw [this]
    simp

theorem processTask_withConstructorErr (f : Config τ → World τ → Option Error) (env : Env τ)
    (w : Worker τ) (task : WorkerTask τ) :
    processTask (env.withConstructorErr f) w task = processTask env w task := rfl

theorem jobLoop_withConstructorErr (f : Config τ → World τ → Option Error) (env : Env τ)
    (w : Worker τ) (tasks : List (WorkerTask τ)) :
    jobLoop (env.withConstructorErr f) w tasks = jobLoop env w tasks := by
  induction tasks with
  | nil => rfl
  | cons task rest ih =>
    funext s
    simp only [jobLoop, bind_eq, Prog.bind, processTask_withConstructorErr, ih]
    rfl

theorem acceptJobs_withConstructorErr (f : Config τ → World τ → Option Error) (env : Env τ)
    (endpoint repo : String) :
    acceptJobs (env.withConstructorErr f) endpoint repo = acceptJobs env endpoint repo := by
  funext s
  rcases hAA : env.ActorAddress s.world.remote with ⟨e | act, r1⟩
  · simp only [acceptJobs, bind_eq, Prog.bind, callRemote, record_apply, onRemote_apply,
      Env.withConstructorErr, hAA]
  rcases hSS : env.ActorSectorSize act r1 with ⟨e | ssize, r2⟩
  · simp only [acceptJobs, bind_eq, Prog.bind, callRemote, record_apply, onRemote_apply,
      Env.withConstructorErr, hAA, hSS]
  rcases hNS : env.NewStandalone (sbConfig env repo act ssize)
    { fs := s.world.fs, remote := r2 } with ⟨⟨sb, cerr⟩, wd⟩
  have hNS2 : (env.withConstructorErr f).NewStandalone
      (sbConfig (env.withConstructorErr f) repo act ssize)
      { fs := s.world.fs, remote := r2 } =
        ((sb, f (sbConfig env repo act ssize) { fs := s.world.fs, remote := r2 }), wd) := by
    show (match env.NewStandalone (sbConfig env repo act ssize)
      { fs := s.world.fs, remote := r2 } with
      | ((sb, _), wd1) => ((sb, f (sbConfig env repo act ssize)
          { fs := s.world.fs, remote := r2 }), wd1)) = _
    rw [hNS]
  rcases hWQ : env.WorkerQueue wd.remote with ⟨e | tasks, r4⟩
  · have hNS1 : env.NewStandalone
        { SectorSize := ssize, Miner := act, WorkerThreads := 1,
          CacheDir := env.filepathJoin [repo, "cache"],
          SealedDir := env.filepathJoin [repo, "sealed"],
          StagedDir := env.filepathJoin [repo, "staged"] }
        { fs := s.world.fs, remote := r2 } = ((sb, cerr), wd) := hNS
    have hNS3 : (env.withConstructorErr f).NewStandalone
        { SectorSize := ssize, Miner := act, WorkerThreads := 1,
          CacheDir := (env.withConstructorErr f).filepathJoin [repo, "cache"],
          SealedDir := (env.withConstructorErr f).filepathJoin [repo, "sealed"],
          StagedDir := (env.withConstructorErr f).filepathJoin [repo, "staged"] }
        { fs := s.world.fs, remote := r2 } =
          ((sb, f (sbConfig env repo act ssize) { fs := s.world.fs, remote := r2 }), wd) := hNS2
    have hAA' : (env.withConstructorErr f).ActorAddress s.world.remote = (.ok act, r1) := hAA
    have hSS' : (env.withConstructorErr f).ActorSectorSize act r1 = (.ok ssize, r2) := hSS
    have hWQ' : (env.withConstructorErr f).WorkerQueue wd.remote = (.error e, r4) := hWQ
    simp only [acceptJobs, bind_eq, Prog.bind, callRemote, record_apply, onRemote_apply,
      callWorld, onWorld_apply, hAA, hSS, hNS1, hWQ, hAA', hSS', hNS3, hWQ', pure_eq]
    rfl
  · rw [acceptJobs_of_startup env endpoint repo s act r1 r2 r4 ssize sb cerr wd tasks
      hAA hSS hNS hWQ,
      acceptJobs_of_startup (env.withConstructorErr f) endpoint repo s act r1 r2 r4 ssize sb _ wd
        tasks hAA hSS hNS2 hWQ, jobLoop_withConstructorErr]
    rfl

theorem acceptJobs_error_iff (env : Env τ) (endpoint repo : String) (s : State τ) (e : Error) :
    ((acceptJobs env endpoint repo s).1 = .ret (some e) ↔ startupError env repo s = some e)
      ∧ ((acceptJobs env endpoint repo s).1 = .ret (some e) →
          ∃ l, (acceptJobs env endpoint repo s).2.calls = s.calls ++ l ∧
            ∀ c ∈ l, c.isTaskCall = false) := by
  rcases hAA : env.ActorAddress s.world.remote with ⟨e1 | act, r1⟩
  · have h : acceptJobs env endpoint repo s =
        (.ret (some e1), { world := { fs := s.world.fs, remote := r1 },
                           calls := s.calls ++ [.ActorAddress] }) := by
      simp only [acceptJobs, bind_eq, Prog.bind, callRemote, record_apply, onRemote_apply,
        hAA, pure_eq]
    rw [h]
    refine ⟨by simp [startupError, hAA], fun _ => ⟨[.ActorAddress], rfl, ?_⟩⟩
    simp [Call.isTaskCall]
  rcases hSS : env.ActorSectorSize act r1 with ⟨e1 | ssize, r2⟩
  · have h : acceptJobs env endpoint repo s =
        (.ret (some e1), { world := { fs := s.world.fs, remote := r2 },
                           calls := s.calls ++ [.ActorAddress, .ActorSectorSize act] }) := by
      simp only [acceptJobs, bind_eq, Prog.bind, callRemote, record_apply, onRemote_apply,
        hAA, hSS, pure_eq, List.append_assoc, List.singleton_append]
    rw [h]
    refine ⟨by simp [startupError, hAA, hSS],
      fun _ => ⟨[.ActorAddress, .ActorSectorSize act], rfl, ?_⟩⟩
    simp [Call.isTaskCall]
  rcases hNS : env.NewStandalone (sbConfig env repo act ssize)
    { fs := s.world.fs, remote := r2 } with ⟨⟨sb, cerr⟩, wd⟩
  rcases hWQ : env.WorkerQueue wd.remote with ⟨e1 | tasks, r4⟩
  · have hNS1 : env.NewStandalone
        { SectorSize := ssize, Miner := act, WorkerThreads := 1,
          CacheDir := env.filepathJoin [repo, "cache"],
          SealedDir := env.filepathJoin [repo, "sealed"],
          StagedDir := env.filepathJoin [repo, "staged"] }
        { fs := s.world.fs, remote := r2 } = ((sb, cerr), wd) := hNS
    have h : acceptJobs env endpoint repo s =
        (.ret (some e1), { world := { fs := wd.fs, remote := r4 },
                           calls := s.calls ++ [.ActorAddress, .ActorSectorSize act,
                             .NewStandalone (sbConfig env repo act ssize), .WorkerQueue] }) := by
      simp only [acceptJobs, bind_eq, Prog.bind, callRemote, record_apply, onRemote_apply,
        callWorld, onWorld_apply, hAA, hSS, hNS1, hWQ, pure_eq, List.append_assoc,
        List.singleton_append, sbConfig]
      rfl
    rw [h]
    refine ⟨by simp [startupError, hAA, hSS, hNS, hWQ], fun _ => ⟨_, rfl, ?_⟩⟩
    simp [Call.isTaskCall]
  · have h := acceptJobs_of_startup env endpoint repo s act r1 r2 r4 ssize sb cerr wd tasks
      hAA hSS hNS hWQ
    have hne : (acceptJobs env endpoint repo s).1 ≠ .ret (some e) := by
      rw [h]
      rcases hj : jobLoop env { minerEndpoint := endpoint, repo := repo, sb := sb } tasks
        { world := { fs := wd.fs, remote := r4 },
          calls := s.calls ++ [.ActorAddress, .ActorSectorSize act,
            .NewStandalone (sbConfig env repo act ssize), .WorkerQueue] } with ⟨u | msg, s1⟩
      · simp [Prog.bind, hj, record_apply, Prog.pure]
      · simp [Prog.bind, hj]
    refine ⟨⟨fun h1 => absurd h1 hne, fun h1 => ?_⟩, fun h1 => absurd h1 hne⟩
    simp [startupError, hAA, hSS, hNS, hWQ] at h1

/-- C10. `acceptJobs` returns a non-nil error exactly when `ActorAddress`,
`ActorSectorSize` or `WorkerQueue` fails, and the error is that call's; in that
case no task is received and `WorkerDone` is not called. The error returned by
the constructor of the sector builder plays no part: whatever it is, `acceptJobs`
does the same; with a failing constructor and a queue that delivers a task, the
loop starts and receives that task. -/
theorem acceptJobs_startup_errors (env : Env τ) (endpoint repo : String) (s : State τ) :
    (∀ e, (acceptJobs env endpoint repo s).1 = .ret (some e) ↔
        startupError env repo s = some e)
      ∧ (∀ e, (acceptJobs env endpoint repo s).1 = .ret (some e) →
          ∃ l, (acceptJobs env endpoint repo s).2.calls = s.calls ++ l ∧
            ∀ c ∈ l, c.isTaskCall = false)
      ∧ (∀ f : Config τ → World τ → Option Error,
          acceptJobs (env.withConstructorErr f) endpoint repo = acceptJobs env endpoint repo)
      ∧ ∀ (act : τ.Address) (r1 r2 r4 : τ.Remote) (ssize : Nat) (sb : τ.SectorBuilder)
          (cerr : Error) (wd : World τ) (task : WorkerTask τ) (rest : List (WorkerTask τ)),
          env.ActorAddress s.world.remote = (.ok act, r1) →
          env.ActorSectorSize act r1 = (.ok ssize, r2) →
          env.NewStandalone (sbConfig env repo act ssize) { fs := s.world.fs, remote := r2 } =
            ((sb, some cerr), wd) →
          env.WorkerQueue wd.remote = (.ok (task :: rest), r4) →
          ∃ l, (acceptJobs env endpoint repo s).2.calls =
            s.calls ++ [.ActorAddress, .ActorSectorSize act,
              .NewStandalone (sbConfig env repo act ssize), .WorkerQueue, .recv task] ++ l := by
  refine ⟨fun e => (acceptJobs_error_iff env endpoint repo s e).1,
    fun e => (acceptJobs_error_iff env endpoint repo s e).2,
    fun f => acceptJobs_withConstructorErr f env endpoint repo, ?_⟩
  intro act r1 r2 r4 ssize sb cerr wd task rest hAA hSS hNS hWQ
  rw [acceptJobs_of_startup env endpoint repo s act r1 r2 r4 ssize sb (some cerr) wd
    (task :: rest) hAA hSS hNS hWQ]
  obtain ⟨l, hl⟩ := jobLoop_cons_calls env
    { minerEndpoint := endpoint, repo := repo, sb := sb } task rest
    { world := { fs := wd.fs, remote := r4 },
      calls := s.calls ++ [.ActorAddress, .ActorSectorSize act,
        .NewStandalone (sbConfig env repo act ssize), .WorkerQueue] }
  rcases hj : jobLoop env { minerEndpoint := endpoint, repo := repo, sb := sb } (task :: rest)
    { world := { fs := wd.fs, remote := r4 },
      calls := s.calls ++ [.ActorAddress, .ActorSectorSize act,
        .NewStandalone (sbConfig env repo act ssize), .WorkerQueue] } with ⟨u | msg, s1⟩
  · rw [hj] at hl
    refine ⟨l ++ [.logWarn "acceptJobs exit"], ?_⟩
    simp only [Prog.bind, hj, record_apply, Prog.pure]
    have : s1.calls = (s.calls ++ [.ActorAddress, .ActorSectorSize act,
        .NewStandalone (sbConfig env repo act ssize), .WorkerQueue]) ++ .recv task :: l := hl
    rw [this]
    simp
  · rw [hj] at hl
    refine ⟨l, ?_⟩
    simp only [Prog.bind, hj]
    have : s1.calls = (s.calls ++ [.ActorAddress, .ActorSectorSize act,
        .NewStandalone (sbConfig env repo act ssize), .WorkerQueue]) ++ .recv task :: l := hl
    rw [this]
    simp

/-- Witness for C10: the constructor fails and the queue delivers one task of
unknown type, which is received and reported; and a coordinator that refuses
the queue makes `acceptJobs` return that error. -/
theorem acceptJobs_startup_errors_witness :
    (∃ l, (acceptJobs (demoEnvNoBuilder [demoTask 99 8]) "http://miner" "repo"
          (demoState 200)).2.calls =
        (demoState 200).calls ++ [.ActorAddress, .ActorSectorSize (1000 : Nat),
          .NewStandalone (sbConfig (demoEnvNoBuilder [demoTask 99 8]) "repo" (1000 : Nat) 1024),
          .WorkerQueue, .recv (demoTask 99 8)] ++ l)
      ∧ (acceptJobs (demoEnvNoBuilder [demoTask 99 8]) "http://miner" "repo"
          (demoState 200)).1 = .ret none
      ∧ (acceptJobs demoEnvNoQueue "http://miner" "repo" (demoState 200)).1 =
          .ret (some (.new "queue closed")) :=
  ⟨(acceptJobs_startup_errors (demoEnvNoBuilder [demoTask 99 8]) "http://miner" "repo"
      (demoState 200)).2.2.2 (1000 : Nat) (200 : Nat) (200 : Nat) (200 : Nat) 1024 ()
      (.new "no builder") (demoState 200).world (demoTask 99 8) [] rfl rfl rfl rfl,
    rfl,
    ((acceptJobs_startup_errors demoEnvNoQueue "http://miner" "repo" (demoState 200)).1
      (.new "queue closed")).2 rfl⟩

end LotusWorker
